import Mathlib

/-!
Verification of the payment-lifecycle state machine of
`telegram_payment_bot.py` (single-file Telegram payment bot).

The embedding models the parts of the program that the specification's
claims are about: the payment record store (`DB["payments"]`, a JSON list
mutated in place), the countdown-task table (`COUNTDOWN_TASKS`, a dict
keyed by payment id), and the four triggers that mutate a record's
status: the Razorpay webhook credit event, the admin approve/decline
callback, the countdown timeout, and the buyer's proof upload.

Pure-data conventions:
* the Telegram / Flask / requests transports are side channels: message
  sends are recorded as outputs (the access-link sends, which the spec
  tracks), never as state;
* each handler becomes a function `State → State × outputs` translated
  line by line from the Python control flow;
* UI-bookkeeping record fields of the source (`username`,
  `caption_text`, `chat_id`, `message_id`, `loading_msg_ids`) are
  omitted: no claim and no control flow relevant to a claim reads them.
-/

namespace PaymentBot

/-- The `status` strings of the source, as a closed enum:
`"pending" | "review" | "verified" | "declined" | "expired"`. -/
inductive Status where
  | pending
  | review
  | verified
  | declined
  | expired
  deriving DecidableEq, Repr

/-- One entry of `DB["payments"]`, as built in `callback_handler`
(`payment_id`, `user_id`, `package`, `method`, `status`, `created_at`)
and later extended by the UPI branch (`razorpay_qr_id`) and by the
proof upload (`proof_files`). -/
structure PaymentRecord where
  payment_id : String
  user_id : Nat
  package : String
  method : String
  status : Status
  created_at : Nat
  razorpay_qr_id : Option String
  proof_files : List String
  deriving DecidableEq, Repr

/-- The mutable state the triggers contend over: `DB["payments"]`
(in list order, i.e. append = creation order) and the key set of
`COUNTDOWN_TASKS` (the payment ids whose countdown task exists and has
not been cancelled). -/
structure State where
  payments : List PaymentRecord
  tasks : List String
  deriving DecidableEq, Repr

/-- Value of `SETTINGS["admin_chat_id"]` from `DEFAULT_SETTINGS`. -/
def ADMIN_CHAT_ID : Nat := 7202040199

/-- Value of `SETTINGS["links"]` from `DEFAULT_SETTINGS`: every package key is
present and maps to the empty string until an admin runs `/setlink`. -/
def DEFAULT_LINKS : List (String × String) := [("vip", ""), ("dark", ""), ("both", "")]

/-- Python `dict.get(key, default)` on a string-keyed table. -/
def dictGet (table : List (String × String)) (key dflt : String) : String :=
  match table.find? (fun kv => kv.1 == key) with
  | some kv => kv.2
  | none => dflt

/-- Embeds `f"p_\x7bint(time.time()*1000)\x7d"`: the payment id generated in
`callback_handler`, a function of the creation time in milliseconds
alone. -/
def payment_id_of (now_ms : Nat) : String := "p_" ++ toString now_ms

/-- The `entry` dict built in `callback_handler` when a payment method
is selected (`status` starts at `"pending"`; `razorpay_qr_id` is set
only later, in the UPI branch). -/
def mkEntry (now_ms : Nat) (uid : Nat) (package method : String) (now_s : Nat) :
    PaymentRecord :=
  { payment_id := payment_id_of now_ms
    user_id := uid
    package := package
    method := method
    status := Status.pending
    created_at := now_s
    razorpay_qr_id := none
    proof_files := [] }

/-- The per-record filter of `message_handler`'s loop:
`p["user_id"] == user_id and p["status"] == "pending" and p["method"] in ("crypto", "remitly")`. -/
def isActivePendingManual (uid : Nat) (p : PaymentRecord) : Bool :=
  p.user_id == uid && p.status == Status.pending &&
    (p.method == "crypto" || p.method == "remitly")

/-- The record scan of `message_handler`: `for p in reversed(DB["payments"])`
finds the most recently appended record passing `isActivePendingManual`,
sets its status to `"review"`, appends the proof file, and reports that
record's payment id (so the caller can cancel its countdown).  Returns
the untouched list and `none` when no record matches.  Processing the
tail first mirrors the `reversed` iteration order. -/
def message_handler_scan (uid : Nat) (proofFile : String) :
    List PaymentRecord → List PaymentRecord × Option String
  | [] => ([], none)
  | p :: rest =>
    match message_handler_scan uid proofFile rest with
    | (rest2, some pid) => (p :: rest2, some pid)
    | (rest2, none) =>
      if isActivePendingManual uid p then
        ({ p with status := Status.review, proof_files := p.proof_files ++ [proofFile] }
            :: rest2, some p.payment_id)
      else
        (p :: rest2, none)

/-- Handler `message_handler` on a photo/document upload: attach the proof to
the most recent matching pending record (if any), cancel and remove
that record's countdown task.  No matching record leaves the state
unchanged (the handler's loop body never runs). -/
def message_handler (uid : Nat) (proofFile : String) (s : State) : State :=
  match message_handler_scan uid proofFile s.payments with
  | (db2, some pid) => { payments := db2, tasks := s.tasks.filter (fun t => t ≠ pid) }
  | (_, none) => s

/-- The record loop of `admin_review_handler`: find the first record
with the given payment id; on `"approve"` with status `"review"` set
`"verified"` and send the access link to that record's user for its
package; on `"decline"` with status `"review"` set `"declined"`; a
record not under review is answered with an alert and left untouched.
For any other action string the loop keeps scanning (the dispatch
pattern guarantees the action is approve or decline). -/
def admin_review_scan (action pay_id : String) :
    List PaymentRecord → List PaymentRecord × List (Nat × String)
  | [] => ([], [])
  | p :: rest =>
    if p.payment_id == pay_id then
      if action == "approve" then
        if p.status == Status.review then
          ({ p with status := Status.verified } :: rest, [(p.user_id, p.package)])
        else
          (p :: rest, [])
      else if action == "decline" then
        if p.status == Status.review then
          ({ p with status := Status.declined } :: rest, [])
        else
          (p :: rest, [])
      else
        let r := admin_review_scan action pay_id rest
        (p :: r.1, r.2)
    else
      let r := admin_review_scan action pay_id rest
      (p :: r.1, r.2)

/-- Handler `admin_review_handler`: splits the callback data into action and
payment id, unconditionally cancels and removes the countdown task for
that id, then runs the record loop.  The second component lists the
access-link sends `(user_id, package)` performed via
`send_link_to_user`.  The `actor_chat_id` argument is the chat the
callback came from; the source handler never reads it (there is no
admin identity check on this path, unlike every other admin handler). -/
def admin_review_handler (actor_chat_id : Nat) (action pay_id : String) (s : State) :
    State × List (Nat × String) :=
  let _ := actor_chat_id
  let tasks2 := s.tasks.filter (fun t => t ≠ pay_id)
  let r := admin_review_scan action pay_id s.payments
  ({ payments := r.1, tasks := tasks2 }, r.2)

/-- Embeds `hmac.compare_digest` on hex digests: functionally, string
equality (the constant-time execution of the Python library call has
no observable counterpart in a functional model). -/
def compare_digest (a b : String) : Bool := a == b

/-- The parsed webhook payload fields the handler reads:
`data['event']`, and for a credit event the
`payload.qr_code.entity` id and its `notes` (`user_id`, `package`). -/
structure WebhookEvent where
  event : String
  qr_id : String
  user_id : Nat
  package : String
  deriving DecidableEq, Repr

/-- A Flask response of `razorpay_webhook` together with the state it
leaves behind and the access-link sends it performed. -/
structure WebhookResponse where
  httpStatus : Nat
  body : String
  state : State
  linkSends : List (Nat × String)
  deriving DecidableEq, Repr

/-- The record loop of the webhook credit branch: find the first record
with `p.get("razorpay_qr_id") == qr_id and p["status"] == "pending"`,
set it `"verified"` and report its payment id (the loop `break`s after
the first match). -/
def webhook_credit_scan (qr : String) :
    List PaymentRecord → List PaymentRecord × Option String
  | [] => ([], none)
  | p :: rest =>
    if p.razorpay_qr_id == some qr && p.status == Status.pending then
      ({ p with status := Status.verified } :: rest, some p.payment_id)
    else
      let r := webhook_credit_scan qr rest
      (p :: r.1, r.2)

/-- The `VALIDATED PAYLOAD` part of `razorpay_webhook` (everything
after the signature check): a `qr_code.credited` event verifies the
first pending record matching the qr id, cancels its countdown task,
and (when the bot loop is up) sends the access link to the user id and
package carried in the event notes; every path answers 200 `"ok"`. -/
def webhook_validated (ev : WebhookEvent) (botLoopSet : Bool) (s : State) :
    WebhookResponse :=
  if ev.event == "qr_code.credited" then
    match webhook_credit_scan ev.qr_id s.payments with
    | (db2, some pid) =>
      { httpStatus := 200
        body := "ok"
        state := { payments := db2, tasks := s.tasks.filter (fun t => t ≠ pid) }
        linkSends := if botLoopSet then [(ev.user_id, ev.package)] else [] }
    | (db2, none) =>
      { httpStatus := 200, body := "ok", state := { s with payments := db2 }, linkSends := [] }
  else
    { httpStatus := 200, body := "ok", state := s, linkSends := [] }

/-- Route `razorpay_webhook`: compare the header signature against the keyed
digest of the raw body (the digest function is a parameter standing
for `hmac.new(secret, body, hashlib.sha256).hexdigest()`); a mismatch
answers 400 `"invalid signature"` before the payload is even read, so
the state and the send log are untouched; a match runs the validated
branch. -/
def razorpay_webhook (hmacSha256Hex : String → String → String)
    (secret received_sig body : String) (ev : WebhookEvent) (botLoopSet : Bool)
    (s : State) : WebhookResponse :=
  if compare_digest received_sig (hmacSha256Hex secret body) = false then
    { httpStatus := 400, body := "invalid signature", state := s, linkSends := [] }
  else
    webhook_validated ev botLoopSet s

/-- The timeout tail of `start_countdown`: update the first record with
the task's payment id to `"expired"` if it is still `"pending"`.  (The
coroutine binds `p` to the first record with the id before its loop and
re-reads `p["status"]` at the deadline.) -/
def expire_scan (pid : String) : List PaymentRecord → List PaymentRecord
  | [] => []
  | p :: rest =>
    if p.payment_id == pid then
      (if p.status == Status.pending then { p with status := Status.expired } else p) :: rest
    else
      p :: expire_scan pid rest

/-- The deadline of a countdown task elapsing.  A cancelled task (id no
longer in `COUNTDOWN_TASKS`) never runs its timeout block, so only a
live task can expire its record; the coroutine does not remove its own
table entry. -/
def start_countdown_timeout (pid : String) (s : State) : State :=
  if s.tasks.contains pid then { s with payments := expire_scan pid s.payments } else s

/-- Python `str.upper()`: character-wise upper-casing. -/
def strUpper (s : String) : String := String.mk (s.data.map Char.toUpper)

/-- Dispatcher `send_link_to_user`: the message text sent to the user, as a
function of `SETTINGS["links"]` and the package.  The `"both"` branch
interpolates the stored vip and dark link values (present-but-empty by
default); the `dict.get` fallbacks fire only when a key is absent. -/
def send_link_to_user (links : List (String × String)) (package : String) : String :=
  if package == "both" then
    let vip_link := dictGet links "vip" "VIP link not set."
    let dark_link := dictGet links "dark" "DARK link not set."
    "🎉 **Access Granted: BOTH Package**\n\nHere are your links:\n🔹 **VIP Access:**\n" ++
      (vip_link ++ ("\n\n🔹 **DARK Access:**\n" ++ (dark_link ++ "\n")))
  else
    let link := dictGet links package "Link not set. Contact admin."
    "✅ Access Granted (" ++ (strUpper package ++ ("):\n" ++ link))

/-- Helper `findFirst pid db`: the record the `for p in DB["payments"]`
loops of `admin_review_handler` and `start_countdown` bind (first
match on payment id). -/
def findFirst (pid : String) : List PaymentRecord → Option PaymentRecord
  | [] => none
  | p :: rest => if p.payment_id == pid then some p else findFirst pid rest

/-- One resolution trigger, normalized: a signature-valid provider
credit event, an admin approve/decline callback, a countdown deadline,
or a buyer proof upload. -/
inductive Trigger where
  | credit (qr : String) (uid : Nat) (pkg : String) (botLoopSet : Bool)
  | adminAct (actor : Nat) (action pay_id : String)
  | timeout (pay_id : String)
  | proofUpload (uid : Nat) (proofFile : String)

/-- The state effect of one trigger. -/
def step : Trigger → State → State
  | Trigger.credit qr uid pkg b, s =>
      (webhook_validated { event := "qr_code.credited", qr_id := qr, user_id := uid, package := pkg } b s).state
  | Trigger.adminAct a act pid, s => (admin_review_handler a act pid s).1
  | Trigger.timeout pid, s => start_countdown_timeout pid s
  | Trigger.proofUpload uid f, s => message_handler uid f s

/-- A sequence of triggers, applied in order. -/
def runTriggers (ts : List Trigger) (s : State) : State :=
  ts.foldl (fun s t => step t s) s

/-- The terminal statuses `verified | declined | expired`. -/
def isTerminal : Status → Bool
  | Status.verified => true
  | Status.declined => true
  | Status.expired => true
  | _ => false

/-! ### Structural lemmas about the record scans -/

theorem message_handler_scan_length (uid : Nat) (f : String) :
    ∀ db : List PaymentRecord, (message_handler_scan uid f db).1.length = db.length := by
  intro db
  induction db with
  | nil => rfl
  | cons p rest ih =>
    rcases hrec : message_handler_scan uid f rest with ⟨rest2, opid⟩
    rw [hrec] at ih
    cases opid with
    | none =>
      by_cases hp : isActivePendingManual uid p
      · simp [message_handler_scan, hrec, hp, ih]
      · simp [message_handler_scan, hrec, hp, ih]
    | some pid => simp [message_handler_scan, hrec, ih]

theorem webhook_credit_scan_length (qr : String) :
    ∀ db : List PaymentRecord, (webhook_credit_scan qr db).1.length = db.length := by
  intro db
  induction db with
  | nil => rfl
  | cons p rest ih =>
    by_cases hp : (p.razorpay_qr_id == some qr && p.status == Status.pending) = true
    · simp [webhook_credit_scan, hp]
    · simp [webhook_credit_scan, hp, ih]

theorem admin_review_scan_length (action pay_id : String) :
    ∀ db : List PaymentRecord, (admin_review_scan action pay_id db).1.length = db.length := by
  intro db
  induction db with
  | nil => rfl
  | cons p rest ih =>
    by_cases hid : (p.payment_id == pay_id) = true
    · by_cases ha : (action == "approve") = true
      · by_cases hs : (p.status == Status.review) = true
        · simp [admin_review_scan, hid, ha, hs]
        · simp [admin_review_scan, hid, ha, hs]
      · by_cases hd : (action == "decline") = true
        · by_cases hs : (p.status == Status.review) = true
          · simp [admin_review_scan, hid, ha, hd, hs]
          · simp [admin_review_scan, hid, ha, hd, hs]
        · simp [admin_review_scan, hid, ha, hd, ih]
    · simp [admin_review_scan, hid, ih]

theorem expire_scan_length (pid : String) :
    ∀ db : List PaymentRecord, (expire_scan pid db).length = db.length := by
  intro db
  induction db with
  | nil => rfl
  | cons p rest ih =>
    by_cases hid : (p.payment_id == pid) = true
    · simp [expire_scan, hid]
    · simp [expire_scan, hid, ih]

theorem message_handler_scan_get (uid : Nat) (f : String) :
    ∀ (db : List PaymentRecord) (i : Nat),
      (message_handler_scan uid f db).1[i]? = db[i]? ∨
      ∃ q, db[i]? = some q ∧ isActivePendingManual uid q = true ∧
        (message_handler_scan uid f db).1[i]? =
          some { q with status := Status.review, proof_files := q.proof_files ++ [f] } := by
  intro db
  induction db with
  | nil => intro i; left; rfl
  | cons p rest ih =>
    intro i
    rcases hrec : message_handler_scan uid f rest with ⟨rest2, opid⟩
    cases opid with
    | some pid =>
      cases i with
      | zero => left; simp [message_handler_scan, hrec]
      | succ j =>
        rcases ih j with h | ⟨q, hq, hact, hres⟩
        · left; rw [hrec] at h; simpa [message_handler_scan, hrec] using h
        · right; exact ⟨q, by simpa using hq, hact,
            by rw [hrec] at hres; simpa [message_handler_scan, hrec] using hres⟩
    | none =>
      by_cases hp : isActivePendingManual uid p
      · cases i with
        | zero =>
          right
          exact ⟨p, by simp, hp, by simp [message_handler_scan, hrec, hp]⟩
        | succ j =>
          rcases ih j with h | ⟨q, hq, hact, hres⟩
          · left; rw [hrec] at h; simpa [message_handler_scan, hrec, hp] using h
          · right; exact ⟨q, by simpa using hq, hact,
              by rw [hrec] at hres; simpa [message_handler_scan, hrec, hp] using hres⟩
      · cases i with
        | zero => left; simp [message_handler_scan, hrec, hp]
        | succ j =>
          rcases ih j with h | ⟨q, hq, hact, hres⟩
          · left; rw [hrec] at h; simpa [message_handler_scan, hrec, hp] using h
          · right; exact ⟨q, by simpa using hq, hact,
              by rw [hrec] at hres; simpa [message_handler_scan, hrec, hp] using hres⟩

theorem webhook_credit_scan_get (qr : String) :
    ∀ (db : List PaymentRecord) (i : Nat),
      (webhook_credit_scan qr db).1[i]? = db[i]? ∨
      ∃ q, db[i]? = some q ∧ q.status = Status.pending ∧
        (webhook_credit_scan qr db).1[i]? = some { q with status := Status.verified } := by
  intro db
  induction db with
  | nil => intro i; left; rfl
  | cons p rest ih =>
    intro i
    by_cases hp : (p.razorpay_qr_id == some qr && p.status == Status.pending) = true
    · cases i with
      | zero =>
        right
        refine ⟨p, by simp, ?_, by simp [webhook_credit_scan, hp]⟩
        have := (Bool.and_eq_true _ _).mp hp
        exact of_decide_eq_true (by simpa using this.2)
      | succ j => left; simp [webhook_credit_scan, hp]
    · cases i with
      | zero => left; simp [webhook_credit_scan, hp]
      | succ j =>
        rcases ih j with h | ⟨q, hq, hst, hres⟩
        · left; simpa [webhook_credit_scan, hp] using h
        · right; exact ⟨q, by simpa using hq, hst,
            by simpa [webhook_credit_scan, hp] using hres⟩

theorem admin_review_scan_get (action pay_id : String) :
    ∀ (db : List PaymentRecord) (i : Nat),
      (admin_review_scan action pay_id db).1[i]? = db[i]? ∨
      ∃ q, db[i]? = some q ∧ (q.payment_id == pay_id) = true ∧ q.status = Status.review ∧
        ((admin_review_scan action pay_id db).1[i]? = some { q with status := Status.verified } ∨
         (admin_review_scan action pay_id db).1[i]? = some { q with status := Status.declined }) := by
  intro db
  induction db with
  | nil => intro i; left; rfl
  | cons p rest ih =>
    intro i
    by_cases hid : (p.payment_id == pay_id) = true
    · by_cases ha : (action == "approve") = true
      · by_cases hs : (p.status == Status.review) = true
        · cases i with
          | zero =>
            right
            exact ⟨p, by simp, hid, of_decide_eq_true (by simpa using hs),
              Or.inl (by simp [admin_review_scan, hid, ha, hs])⟩
          | succ j => left; simp [admin_review_scan, hid, ha, hs]
        · cases i with
          | zero => left; simp [admin_review_scan, hid, ha, hs]
          | succ j => left; simp [admin_review_scan, hid, ha, hs]
      · by_cases hd : (action == "decline") = true
        · by_cases hs : (p.status == Status.review) = true
          · cases i with
            | zero =>
              right
              exact ⟨p, by simp, hid, of_decide_eq_true (by simpa using hs),
                Or.inr (by simp [admin_review_scan, hid, ha, hd, hs])⟩
            | succ j => left; simp [admin_review_scan, hid, ha, hd, hs]
          · cases i with
            | zero => left; simp [admin_review_scan, hid, ha, hd, hs]
            | succ j => left; simp [admin_review_scan, hid, ha, hd, hs]
        · cases i with
          | zero => left; simp [admin_review_scan, hid, ha, hd]
          | succ j =>
            rcases ih j with h | ⟨q, hq, hqid, hst, hres⟩
            · left; simpa [admin_review_scan, hid, ha, hd] using h
            · right
              refine ⟨q, by simpa using hq, hqid, hst, ?_⟩
              rcases hres with hres | hres
              · exact Or.inl (by simpa [admin_review_scan, hid, ha, hd] using hres)
              · exact Or.inr (by simpa [admin_review_scan, hid, ha, hd] using hres)
    · cases i with
      | zero => left; simp [admin_review_scan, hid]
      | succ j =>
        rcases ih j with h | ⟨q, hq, hqid, hst, hres⟩
        · left; simpa [admin_review_scan, hid] using h
        · right
          refine ⟨q, by simpa using hq, hqid, hst, ?_⟩
          rcases hres with hres | hres
          · exact Or.inl (by simpa [admin_review_scan, hid] using hres)
          · exact Or.inr (by simpa [admin_review_scan, hid] using hres)

theorem expire_scan_get (pid : String) :
    ∀ (db : List PaymentRecord) (i : Nat),
      (expire_scan pid db)[i]? = db[i]? ∨
      ∃ q, db[i]? = some q ∧ (q.payment_id == pid) = true ∧ q.status = Status.pending ∧
        (expire_scan pid db)[i]? = some { q with status := Status.expired } := by
  intro db
  induction db with
  | nil => intro i; left; rfl
  | cons p rest ih =>
    intro i
    by_cases hid : (p.payment_id == pid) = true
    · by_cases hs : (p.status == Status.pending) = true
      · cases i with
        | zero =>
          right
          exact ⟨p, by simp, hid, of_decide_eq_true (by simpa using hs),
            by simp [expire_scan, hid, hs]⟩
        | succ j => left; simp [expire_scan, hid, hs]
      · cases i with
        | zero => left; simp [expire_scan, hid, hs]
        | succ j => left; simp [expire_scan, hid, hs]
    · cases i with
      | zero => left; simp [expire_scan, hid]
      | succ j =>
        rcases ih j with h | ⟨q, hq, hqid, hst, hres⟩
        · left; simpa [expire_scan, hid] using h
        · right; exact ⟨q, by simpa using hq, hqid, hst,
            by simpa [expire_scan, hid] using hres⟩

theorem message_handler_scan_nomatch (uid : Nat) (f : String) :
    ∀ db : List PaymentRecord, (∀ p ∈ db, isActivePendingManual uid p = false) →
      message_handler_scan uid f db = (db, none) := by
  intro db
  induction db with
  | nil => intro _; rfl
  | cons p rest ih =>
    intro h
    have hrest := ih (fun q hq => h q (List.mem_cons_of_mem _ hq))
    have hp := h p (List.mem_cons_self _ _)
    simp [message_handler_scan, hrest, hp]

theorem not_mem_filter_ne (x : String) (l : List String) :
    x ∉ l.filter (fun t => t ≠ x) := by
  intro hx
  have := List.of_mem_filter hx
  simp at this

/-- Claim C2 — counterexample.  The claim says a proof upload moves a
pending manual record to review *without cancelling its countdown*, and
that a record in review still expires at the deadline.  On the code,
the upload cancels the countdown task (`COUNTDOWN_TASKS.pop`), and the
countdown's timeout block expires only records still `pending`, so a
review record with a live countdown survives the deadline untouched. -/
theorem proof_upload_cancels_countdown_cex :
    message_handler 42 "proof.jpg"
        { payments := [{ payment_id := "p_1", user_id := 42, package := "vip",
                         method := "crypto", status := Status.pending, created_at := 100,
                         razorpay_qr_id := none, proof_files := [] }],
          tasks := ["p_1"] } =
      { payments := [{ payment_id := "p_1", user_id := 42, package := "vip",
                       method := "crypto", status := Status.review, created_at := 100,
                       razorpay_qr_id := none, proof_files := ["proof.jpg"] }],
        tasks := [] } ∧
    start_countdown_timeout "p_1"
        { payments := [{ payment_id := "p_1", user_id := 42, package := "vip",
                         method := "crypto", status := Status.review, created_at := 100,
                         razorpay_qr_id := none, proof_files := ["proof.jpg"] }],
          tasks := ["p_1"] } =
      { payments := [{ payment_id := "p_1", user_id := 42, package := "vip",
                       method := "crypto", status := Status.review, created_at := 100,
                       razorpay_qr_id := none, proof_files := ["proof.jpg"] }],
        tasks := ["p_1"] } := by decide

/-- Claim C2 — amended.  A proof upload that attaches to a record
*cancels* that record's countdown task, and a record in `review` is no
longer subject to the timeout: the countdown deadline leaves every
review record untouched. -/
theorem proof_upload_cancels_and_review_not_expirable
    (uid : Nat) (f : String) (s : State) (pid q : String) (i : Nat) :
    ((message_handler_scan uid f s.payments).2 = some pid →
      pid ∉ (message_handler uid f s).tasks) ∧
    (∀ r, s.payments[i]? = some r → r.status = Status.review →
      (start_countdown_timeout q s).payments[i]? = some r) := by
  constructor
  · intro hsome
    unfold message_handler
    rcases hscan : message_handler_scan uid f s.payments with ⟨db2, opid⟩
    rw [hscan] at hsome
    cases opid with
    | none => exact absurd hsome (by simp)
    | some pid2 =>
      obtain rfl : pid2 = pid := by simpa using hsome
      exact not_mem_filter_ne _ s.tasks
  · intro r hr hrev
    by_cases htask : q ∈ s.tasks
    · have hpay : (start_countdown_timeout q s).payments = expire_scan q s.payments := by
        simp [start_countdown_timeout, htask]
      rw [hpay]
      rcases expire_scan_get q s.payments i with h | ⟨q2, hq2, _, hst2, _⟩
      · rw [h]; exact hr
      · rw [hr] at hq2
        cases hq2
        rw [hrev] at hst2
        cases hst2
    · have hs : start_countdown_timeout q s = s := by
        simp [start_countdown_timeout, htask]
      rw [hs]; exact hr

/-- Witness for the amended C2 theorem at a concrete state. -/
theorem proof_upload_cancels_and_review_not_expirable_witness :
    ("p_1" ∉ (message_handler 42 "proof.jpg"
        { payments := [{ payment_id := "p_1", user_id := 42, package := "vip",
                         method := "crypto", status := Status.pending, created_at := 100,
                         razorpay_qr_id := none, proof_files := [] }],
          tasks := ["p_1"] }).tasks) ∧
    (start_countdown_timeout "p_1"
        { payments := [{ payment_id := "p_1", user_id := 42, package := "vip",
                         method := "crypto", status := Status.review, created_at := 100,
                         razorpay_qr_id := none, proof_files := ["x"] }],
          tasks := ["p_1"] }).payments[0]? =
      some { payment_id := "p_1", user_id := 42, package := "vip",
             method := "crypto", status := Status.review, created_at := 100,
             razorpay_qr_id := none, proof_files := ["x"] } :=
  ⟨(proof_upload_cancels_and_review_not_expirable 42 "proof.jpg"
      { payments := [{ payment_id := "p_1", user_id := 42, package := "vip",
                       method := "crypto", status := Status.pending, created_at := 100,
                       razorpay_qr_id := none, proof_files := [] }],
        tasks := ["p_1"] } "p_1" "q" 0).1 (by decide),
   (proof_upload_cancels_and_review_not_expirable 42 "proof.jpg"
      { payments := [{ payment_id := "p_1", user_id := 42, package := "vip",
                       method := "crypto", status := Status.review, created_at := 100,
                       razorpay_qr_id := none, proof_files := ["x"] }],
        tasks := ["p_1"] } "p" "p_1" 0).2
     { payment_id := "p_1", user_id := 42, package := "vip",
       method := "crypto", status := Status.review, created_at := 100,
       razorpay_qr_id := none, proof_files := ["x"] } (by decide) (by decide)⟩

/-- Claim C1 — the code violates the claim.  `admin_review_handler` never
compares the acting chat against `SETTINGS["admin_chat_id"]` (every
other admin handler does): an actor distinct from the configured admin
identity approves a record under review, the record is mutated to
verified and the access link is dispatched, with no rejection. -/
theorem admin_review_no_identity_check :
    (999 : Nat) ≠ ADMIN_CHAT_ID ∧
    admin_review_handler 999 "approve" "p_1"
        { payments := [{ payment_id := "p_1", user_id := 42, package := "vip",
                         method := "crypto", status := Status.review, created_at := 100,
                         razorpay_qr_id := none, proof_files := ["proof.jpg"] }],
          tasks := [] } =
      ({ payments := [{ payment_id := "p_1", user_id := 42, package := "vip",
                        method := "crypto", status := Status.verified, created_at := 100,
                        razorpay_qr_id := none, proof_files := ["proof.jpg"] }],
         tasks := [] }, [(42, "vip")]) := by decide

/-- Claim C5 — a webhook call whose header signature differs from the
keyed digest of the raw body is answered 400 "invalid signature", for
every digest function, payload and state: no record is looked up, the
state is untouched and no access link is sent. -/
theorem webhook_bad_signature_rejected
    (hmacSha256Hex : String → String → String) (secret sig body : String)
    (ev : WebhookEvent) (b : Bool) (s : State)
    (hsig : sig ≠ hmacSha256Hex secret body) :
    razorpay_webhook hmacSha256Hex secret sig body ev b s =
      { httpStatus := 400, body := "invalid signature", state := s, linkSends := [] } := by
  simp [razorpay_webhook, compare_digest, hsig]

/-- Witness for the C5 theorem at a concrete tampered call. -/
theorem webhook_bad_signature_rejected_witness :
    ("forged" ≠ (fun _ _ => "realdigest") "secret" "tampered-body") ∧
    razorpay_webhook (fun _ _ => "realdigest") "secret" "forged" "tampered-body"
        { event := "qr_code.credited", qr_id := "qr_1", user_id := 42, package := "vip" } true
        { payments := [{ payment_id := "p_1", user_id := 42, package := "vip",
                         method := "upi", status := Status.pending, created_at := 100,
                         razorpay_qr_id := some "qr_1", proof_files := [] }],
          tasks := ["p_1"] } =
      { httpStatus := 400, body := "invalid signature",
        state := { payments := [{ payment_id := "p_1", user_id := 42, package := "vip",
                                  method := "upi", status := Status.pending, created_at := 100,
                                  razorpay_qr_id := some "qr_1", proof_files := [] }],
                   tasks := ["p_1"] },
        linkSends := [] } :=
  ⟨by decide,
   webhook_bad_signature_rejected (fun _ _ => "realdigest") "secret" "forged" "tampered-body"
     { event := "qr_code.credited", qr_id := "qr_1", user_id := 42, package := "vip" } true
     { payments := [{ payment_id := "p_1", user_id := 42, package := "vip",
                      method := "upi", status := Status.pending, created_at := 100,
                      razorpay_qr_id := some "qr_1", proof_files := [] }],
       tasks := ["p_1"] } (by decide)⟩

theorem webhook_validated_ok (ev : WebhookEvent) (b : Bool) (s : State) :
    (webhook_validated ev b s).httpStatus = 200 ∧ (webhook_validated ev b s).body = "ok" := by
  unfold webhook_validated
  by_cases hev : (ev.event == "qr_code.credited") = true
  · rcases hscan : webhook_credit_scan ev.qr_id s.payments with ⟨db2, opid⟩
    cases opid with
    | some pid => simp [hev, hscan]
    | none => simp [hev, hscan]
  · simp [hev]

/-- Claim C6 — the webhook's response is 200 "ok" exactly when the
signature verifies — for *every* payload and state, so in particular
for a wrong event type, a credit event matching no record, and a credit
event matching only non-pending records — and 400 "invalid signature"
exactly on a signature mismatch. -/
theorem webhook_valid_signature_always_ok
    (hmacSha256Hex : String → String → String) (secret sig body : String)
    (ev : WebhookEvent) (b : Bool) (s : State) :
    ((razorpay_webhook hmacSha256Hex secret sig body ev b s).httpStatus,
     (razorpay_webhook hmacSha256Hex secret sig body ev b s).body) =
      if sig = hmacSha256Hex secret body then (200, "ok")
      else (400, "invalid signature") := by
  by_cases hsig : sig = hmacSha256Hex secret body
  · have hcd : compare_digest sig (hmacSha256Hex secret body) = true := by
      simp [compare_digest, hsig]
    have hw : razorpay_webhook hmacSha256Hex secret sig body ev b s =
        webhook_validated ev b s := by
      simp [razorpay_webhook, hcd]
    rw [hw, if_pos hsig, (webhook_validated_ok ev b s).1, (webhook_validated_ok ev b s).2]
  · simp [razorpay_webhook, compare_digest, hsig]

theorem message_handler_scan_none_unchanged (uid : Nat) (f : String) :
    ∀ db : List PaymentRecord, (message_handler_scan uid f db).2 = none →
      (message_handler_scan uid f db).1 = db := by
  intro db
  induction db with
  | nil => intro _; rfl
  | cons p rest ih =>
    rcases hrec : message_handler_scan uid f rest with ⟨rest2, opid⟩
    cases opid with
    | some pid =>
      intro h
      exact absurd h (by simp [message_handler_scan, hrec])
    | none =>
      intro hall
      have hrest2 : rest2 = rest := by
        have := ih (by rw [hrec])
        rwa [hrec] at this
      by_cases hp : isActivePendingManual uid p
      · simp [message_handler_scan, hrec, hp] at hall
      · simp [message_handler_scan, hrec, hp, hrest2]

theorem step_credit_payments (qr : String) (uid : Nat) (pkg : String) (b : Bool) (s : State) :
    (step (Trigger.credit qr uid pkg b) s).payments = (webhook_credit_scan qr s.payments).1 := by
  simp only [step, webhook_validated]
  rcases hscan : webhook_credit_scan qr s.payments with ⟨db2, opid⟩
  cases opid with
  | some pid => simp [hscan]
  | none => simp [hscan]

theorem step_admin_payments (a : Nat) (act pid : String) (s : State) :
    (step (Trigger.adminAct a act pid) s).payments = (admin_review_scan act pid s.payments).1 :=
  rfl

theorem step_proof_payments (uid : Nat) (f : String) (s : State) :
    (step (Trigger.proofUpload uid f) s).payments = (message_handler_scan uid f s.payments).1 := by
  simp only [step, message_handler]
  rcases hscan : message_handler_scan uid f s.payments with ⟨db2, opid⟩
  cases opid with
  | some pid => simp [hscan]
  | none =>
    have := message_handler_scan_none_unchanged uid f s.payments (by rw [hscan])
    rw [hscan] at this
    simpa [hscan] using this.symm

theorem isActivePendingManual_status {uid : Nat} {p : PaymentRecord}
    (h : isActivePendingManual uid p = true) : p.status = Status.pending := by
  simp only [isActivePendingManual, Bool.and_eq_true, beq_iff_eq] at h
  exact h.1.2

/-- Claim C3 — terminal statuses are absorbing: a record whose status is
`verified`, `declined` or `expired` is left entirely unchanged (same
position, same fields) by every trigger — a signature-valid webhook
credit event, an admin approve/decline callback, a countdown deadline,
and a proof upload. -/
theorem terminal_status_absorbing (t : Trigger) (s : State) (i : Nat) (r : PaymentRecord)
    (hr : s.payments[i]? = some r) (hterm : isTerminal r.status = true) :
    (step t s).payments[i]? = some r := by
  have hpend : r.status ≠ Status.pending := by
    intro h; rw [h] at hterm; exact absurd hterm (by decide)
  have hrev : r.status ≠ Status.review := by
    intro h; rw [h] at hterm; exact absurd hterm (by decide)
  cases t with
  | credit qr uid pkg b =>
    rw [step_credit_payments]
    rcases webhook_credit_scan_get qr s.payments i with h | ⟨q, hq, hst, _⟩
    · rw [h]; exact hr
    · rw [hr] at hq; cases hq; exact absurd hst hpend
  | adminAct a act pid =>
    rw [step_admin_payments]
    rcases admin_review_scan_get act pid s.payments i with h | ⟨q, hq, _, hst, _⟩
    · rw [h]; exact hr
    · rw [hr] at hq; cases hq; exact absurd hst hrev
  | timeout pid =>
    by_cases htask : pid ∈ s.tasks
    · have hpay : (step (Trigger.timeout pid) s).payments = expire_scan pid s.payments := by
        simp [step, start_countdown_timeout, htask]
      rw [hpay]
      rcases expire_scan_get pid s.payments i with h | ⟨q, hq, _, hst, _⟩
      · rw [h]; exact hr
      · rw [hr] at hq; cases hq; exact absurd hst hpend
    · have hid : step (Trigger.timeout pid) s = s := by
        simp [step, start_countdown_timeout, htask]
      rw [hid]; exact hr
  | proofUpload uid f =>
    rw [step_proof_payments]
    rcases message_handler_scan_get uid f s.payments i with h | ⟨q, hq, hact, _⟩
    · rw [h]; exact hr
    · rw [hr] at hq; cases hq; exact absurd (isActivePendingManual_status hact) hpend

/-- Witness for the C3 theorem: an admin decline callback hitting an
already verified record leaves it untouched. -/
theorem terminal_status_absorbing_witness :
    ((({ payments := [{ payment_id := "p_1", user_id := 42, package := "vip",
                        method := "crypto", status := Status.verified, created_at := 100,
                        razorpay_qr_id := none, proof_files := ["x"] }],
         tasks := [] } : State).payments[0]? =
        some { payment_id := "p_1", user_id := 42, package := "vip",
               method := "crypto", status := Status.verified, created_at := 100,
               razorpay_qr_id := none, proof_files := ["x"] }) ∧
      isTerminal Status.verified = true) ∧
    (step (Trigger.adminAct 7202040199 "decline" "p_1")
        { payments := [{ payment_id := "p_1", user_id := 42, package := "vip",
                         method := "crypto", status := Status.verified, created_at := 100,
                         razorpay_qr_id := none, proof_files := ["x"] }],
          tasks := [] }).payments[0]? =
      some { payment_id := "p_1", user_id := 42, package := "vip",
             method := "crypto", status := Status.verified, created_at := 100,
             razorpay_qr_id := none, proof_files := ["x"] } :=
  ⟨⟨by decide, by decide⟩,
   terminal_status_absorbing (Trigger.adminAct 7202040199 "decline" "p_1")
     { payments := [{ payment_id := "p_1", user_id := 42, package := "vip",
                      method := "crypto", status := Status.verified, created_at := 100,
                      razorpay_qr_id := none, proof_files := ["x"] }],
       tasks := [] } 0
     { payment_id := "p_1", user_id := 42, package := "vip",
       method := "crypto", status := Status.verified, created_at := 100,
       razorpay_qr_id := none, proof_files := ["x"] } (by decide) (by decide)⟩

theorem webhook_credit_scan_none_unchanged (qr : String) :
    ∀ db : List PaymentRecord, (webhook_credit_scan qr db).2 = none →
      (webhook_credit_scan qr db).1 = db := by
  intro db
  induction db with
  | nil => intro _; rfl
  | cons p rest ih =>
    intro hall
    by_cases hp : (p.razorpay_qr_id == some qr && p.status == Status.pending) = true
    · simp [webhook_credit_scan, hp] at hall
    · have h2 : (webhook_credit_scan qr rest).2 = none := by
        simpa [webhook_credit_scan, hp] using hall
      simp [webhook_credit_scan, hp, ih h2]

theorem webhook_credit_scan_nomatch (qr : String) :
    ∀ db : List PaymentRecord,
      (∀ p ∈ db, (p.razorpay_qr_id == some qr && p.status == Status.pending) = false) →
      webhook_credit_scan qr db = (db, none) := by
  intro db
  induction db with
  | nil => intro _; rfl
  | cons p rest ih =>
    intro h
    have hp := h p (List.mem_cons_self _ _)
    have hrest := ih (fun q hq => h q (List.mem_cons_of_mem _ hq))
    simp [webhook_credit_scan, hp, hrest]

theorem webhook_credit_scan_post (qr : String) :
    ∀ (db : List PaymentRecord) (pid : String),
      (webhook_credit_scan qr db).2 = some pid →
      (db.filter (fun p => p.razorpay_qr_id == some qr)).length ≤ 1 →
      ∀ p ∈ (webhook_credit_scan qr db).1,
        (p.razorpay_qr_id == some qr && p.status == Status.pending) = false := by
  intro db
  induction db with
  | nil => intro pid h; simp [webhook_credit_scan] at h
  | cons p rest ih =>
    intro pid hsome huniq q hq
    by_cases hp : (p.razorpay_qr_id == some qr && p.status == Status.pending) = true
    · have hqr : (p.razorpay_qr_id == some qr) = true := ((Bool.and_eq_true _ _).mp hp).1
      have hrest_empty : ∀ x ∈ rest, (x.razorpay_qr_id == some qr) = false := by
        have hfil : (List.filter (fun p => p.razorpay_qr_id == some qr) rest).length = 0 := by
          have : (List.filter (fun p => p.razorpay_qr_id == some qr) (p :: rest)).length =
              (List.filter (fun p => p.razorpay_qr_id == some qr) rest).length + 1 := by
            simp [List.filter_cons, hqr]
          omega
        intro x hx
        by_contra hxq
        have hxq2 : (x.razorpay_qr_id == some qr) = true := by
          revert hxq; cases h2 : (x.razorpay_qr_id == some qr) <;> simp
        have : x ∈ List.filter (fun p => p.razorpay_qr_id == some qr) rest :=
          List.mem_filter.mpr ⟨hx, hxq2⟩
        rw [List.length_eq_zero] at hfil
        rw [hfil] at this
        exact absurd this (List.not_mem_nil x)
      have hq2 : q ∈ ({ p with status := Status.verified } :: rest) := by
        simpa [webhook_credit_scan, hp] using hq
      rcases List.mem_cons.mp hq2 with hq3 | hq3
      · subst hq3; simp
      · simp [hrest_empty q hq3]
    · have hsome2 : (webhook_credit_scan qr rest).2 = some pid := by
        simpa [webhook_credit_scan, hp] using hsome
      have huniq2 : (rest.filter (fun p => p.razorpay_qr_id == some qr)).length ≤ 1 := by
        rcases hqr : (p.razorpay_qr_id == some qr) with _ | _
        · simpa [List.filter_cons, hqr] using huniq
        · have : (List.filter (fun p => p.razorpay_qr_id == some qr) (p :: rest)).length =
              (List.filter (fun p => p.razorpay_qr_id == some qr) rest).length + 1 := by
            simp [List.filter_cons, hqr]
          omega
      have hq2 : q ∈ (p :: (webhook_credit_scan qr rest).1) := by
        simpa [webhook_credit_scan, hp] using hq
      rcases List.mem_cons.mp hq2 with hq3 | hq3
      · subst hq3
        cases h2 : (q.razorpay_qr_id == some qr && q.status == Status.pending) with
        | false => rfl
        | true => exact absurd h2 hp
      · exact ih pid hsome2 huniq2 q hq3

/-- Claim C4 — replay idempotence of the webhook credit path: under the
spec's own invariant that a provider reference is globally unique among
records (at most one record carries the qr id), delivering the same
signature-valid credit event twice leaves exactly the state the first
delivery produced, and the two deliveries together send the access link
at most once. -/
theorem webhook_credit_replay_idempotent
    (hmacSha256Hex : String → String → String) (secret body : String)
    (ev : WebhookEvent) (b : Bool) (s : State)
    (huniq : (s.payments.filter (fun p => p.razorpay_qr_id == some ev.qr_id)).length ≤ 1) :
    (razorpay_webhook hmacSha256Hex secret (hmacSha256Hex secret body) body ev b
        (razorpay_webhook hmacSha256Hex secret (hmacSha256Hex secret body) body ev b s).state).state =
      (razorpay_webhook hmacSha256Hex secret (hmacSha256Hex secret body) body ev b s).state ∧
    ((razorpay_webhook hmacSha256Hex secret (hmacSha256Hex secret body) body ev b s).linkSends.length +
      (razorpay_webhook hmacSha256Hex secret (hmacSha256Hex secret body) body ev b
        (razorpay_webhook hmacSha256Hex secret (hmacSha256Hex secret body) body ev b s).state).linkSends.length)
      ≤ 1 := by
  have hw : ∀ s0 : State,
      razorpay_webhook hmacSha256Hex secret (hmacSha256Hex secret body) body ev b s0 =
        webhook_validated ev b s0 := by
    intro s0
    simp [razorpay_webhook, compare_digest]
  rw [hw, hw]
  by_cases hev : (ev.event == "qr_code.credited") = true
  · rcases hscan : webhook_credit_scan ev.qr_id s.payments with ⟨db2, opid⟩
    cases opid with
    | none =>
      have hdb2 : db2 = s.payments := by
        have := webhook_credit_scan_none_unchanged ev.qr_id s.payments (by rw [hscan])
        rwa [hscan] at this
      subst hdb2
      have hfix : webhook_validated ev b s = { httpStatus := 200, body := "ok", state := s, linkSends := [] } := by
        simp [webhook_validated, hev, hscan]
      rw [hfix]
      rw [hfix]
      simp
    | some pid =>
      have hfirst : webhook_validated ev b s =
          { httpStatus := 200, body := "ok"
            state := { payments := db2, tasks := s.tasks.filter (fun t => t ≠ pid) }
            linkSends := if b then [(ev.user_id, ev.package)] else [] } := by
        simp [webhook_validated, hev, hscan]
      have hpost : ∀ p ∈ db2,
          (p.razorpay_qr_id == some ev.qr_id && p.status == Status.pending) = false := by
        have := webhook_credit_scan_post ev.qr_id s.payments pid (by rw [hscan]) huniq
        rwa [hscan] at this
      have hsecond : webhook_credit_scan ev.qr_id db2 = (db2, none) :=
        webhook_credit_scan_nomatch ev.qr_id db2 hpost
      have hfix2 : webhook_validated ev b
          { payments := db2, tasks := s.tasks.filter (fun t => t ≠ pid) } =
          { httpStatus := 200, body := "ok"
            state := { payments := db2, tasks := s.tasks.filter (fun t => t ≠ pid) }
            linkSends := [] } := by
        simp [webhook_validated, hev, hsecond]
      rw [hfirst]
      rw [hfix2]
      cases b <;> simp
  · have hfix : webhook_validated ev b s = { httpStatus := 200, body := "ok", state := s, linkSends := [] } := by
      simp [webhook_validated, hev]
    rw [hfix]
    rw [hfix]
    simp

/-- Witness for the C4 theorem: one pending UPI record matching the
event's qr id; the replayed delivery changes nothing and the link goes
out exactly once. -/
theorem webhook_credit_replay_idempotent_witness :
    ((({ payments := [{ payment_id := "p_1", user_id := 42, package := "vip",
                        method := "upi", status := Status.pending, created_at := 100,
                        razorpay_qr_id := some "qr_1", proof_files := [] }],
         tasks := ["p_1"] } : State).payments.filter
        (fun p => p.razorpay_qr_id == some ("qr_1" : String))).length ≤ 1) ∧
    ((razorpay_webhook (fun _ _ => "d") "sec" ((fun _ _ => "d") "sec" "bod") "bod"
        { event := "qr_code.credited", qr_id := "qr_1", user_id := 42, package := "vip" } true
        (razorpay_webhook (fun _ _ => "d") "sec" ((fun _ _ => "d") "sec" "bod") "bod"
          { event := "qr_code.credited", qr_id := "qr_1", user_id := 42, package := "vip" } true
          { payments := [{ payment_id := "p_1", user_id := 42, package := "vip",
                           method := "upi", status := Status.pending, created_at := 100,
                           razorpay_qr_id := some "qr_1", proof_files := [] }],
            tasks := ["p_1"] }).state).state =
      (razorpay_webhook (fun _ _ => "d") "sec" ((fun _ _ => "d") "sec" "bod") "bod"
        { event := "qr_code.credited", qr_id := "qr_1", user_id := 42, package := "vip" } true
        { payments := [{ payment_id := "p_1", user_id := 42, package := "vip",
                         method := "upi", status := Status.pending, created_at := 100,
                         razorpay_qr_id := some "qr_1", proof_files := [] }],
          tasks := ["p_1"] }).state ∧
      ((razorpay_webhook (fun _ _ => "d") "sec" ((fun _ _ => "d") "sec" "bod") "bod"
          { event := "qr_code.credited", qr_id := "qr_1", user_id := 42, package := "vip" } true
          { payments := [{ payment_id := "p_1", user_id := 42, package := "vip",
                           method := "upi", status := Status.pending, created_at := 100,
                           razorpay_qr_id := some "qr_1", proof_files := [] }],
            tasks := ["p_1"] }).linkSends.length +
        (razorpay_webhook (fun _ _ => "d") "sec" ((fun _ _ => "d") "sec" "bod") "bod"
          { event := "qr_code.credited", qr_id := "qr_1", user_id := 42, package := "vip" } true
          (razorpay_webhook (fun _ _ => "d") "sec" ((fun _ _ => "d") "sec" "bod") "bod"
            { event := "qr_code.credited", qr_id := "qr_1", user_id := 42, package := "vip" } true
            { payments := [{ payment_id := "p_1", user_id := 42, package := "vip",
                             method := "upi", status := Status.pending, created_at := 100,
                             razorpay_qr_id := some "qr_1", proof_files := [] }],
              tasks := ["p_1"] }).state).linkSends.length) ≤ 1) :=
  ⟨by decide,
   webhook_credit_replay_idempotent (fun _ _ => "d") "sec" "bod"
     { event := "qr_code.credited", qr_id := "qr_1", user_id := 42, package := "vip" } true
     { payments := [{ payment_id := "p_1", user_id := 42, package := "vip",
                      method := "upi", status := Status.pending, created_at := 100,
                      razorpay_qr_id := some "qr_1", proof_files := [] }],
       tasks := ["p_1"] } (by decide)⟩

/-- Claim C7 — counterexample.  With the `"vip"` link unconfigured (the
default empty string) and `"dark"` configured, the dispatcher's message
for the composite `"both"` bundle is the full access-granted text with
the vip slot interpolated as an empty line — a partial grant delivered
to the buyer, not a "contact admin" fallback (no such branch exists for
`"both"`, and the record model of the source has no `delivered` flag to
withhold). -/
theorem both_bundle_unconfigured_no_fallback_cex :
    send_link_to_user [("vip", ""), ("dark", "https://t.me/darklink"), ("both", "")] "both" =
      "🎉 **Access Granted: BOTH Package**\n\nHere are your links:\n🔹 **VIP Access:**\n\n\n🔹 **DARK Access:**\nhttps://t.me/darklink\n" := by
  decide

theorem admin_review_scan_approve_sends (pid : String) :
    ∀ (db : List PaymentRecord) (p : PaymentRecord),
      findFirst pid db = some p → p.status = Status.review →
      (admin_review_scan "approve" pid db).2 = [(p.user_id, p.package)] := by
  intro db
  induction db with
  | nil => intro p h; simp [findFirst] at h
  | cons q rest ih =>
    intro p hf hst
    by_cases hid : (q.payment_id == pid) = true
    · obtain rfl : q = p := by simpa [findFirst, hid] using hf
      have hs : (q.status == Status.review) = true := by simp [hst]
      simp [admin_review_scan, hid, hs]
    · have hf2 : findFirst pid rest = some p := by simpa [findFirst, hid] using hf
      simp [admin_review_scan, hid, ih p hf2 hst]

/-- Claim C7 — amended.  The dispatch on admin approval of a `"both"`
record under review is unconditional: exactly one send is recorded for
that user and package whatever the links table holds, and the composed
message is always the combined access-granted text (with the stored —
possibly empty — link values inlined); the source keeps no `delivered`
flag, so no retry gating exists. -/
theorem approve_both_dispatch_unconditional (a : Nat) (pid : String) (s : State)
    (p : PaymentRecord) (links : List (String × String))
    (hf : findFirst pid s.payments = some p) (hst : p.status = Status.review)
    (hpkg : p.package = "both") :
    (admin_review_handler a "approve" pid s).2 = [(p.user_id, "both")] ∧
    ∃ tail, send_link_to_user links "both" =
      "🎉 **Access Granted: BOTH Package**\n\nHere are your links:\n🔹 **VIP Access:**\n" ++ tail := by
  constructor
  · have := admin_review_scan_approve_sends pid s.payments p hf hst
    rw [hpkg] at this
    simpa [admin_review_handler] using this
  · exact ⟨_, rfl⟩

/-- Witness for the amended C7 theorem with every link unconfigured. -/
theorem approve_both_dispatch_unconditional_witness :
    (admin_review_handler 7202040199 "approve" "p_1"
        { payments := [{ payment_id := "p_1", user_id := 42, package := "both",
                         method := "crypto", status := Status.review, created_at := 100,
                         razorpay_qr_id := none, proof_files := ["x"] }],
          tasks := [] }).2 = [(42, "both")] ∧
    ∃ tail, send_link_to_user DEFAULT_LINKS "both" =
      "🎉 **Access Granted: BOTH Package**\n\nHere are your links:\n🔹 **VIP Access:**\n" ++ tail :=
  approve_both_dispatch_unconditional 7202040199 "p_1"
    { payments := [{ payment_id := "p_1", user_id := 42, package := "both",
                     method := "crypto", status := Status.review, created_at := 100,
                     razorpay_qr_id := none, proof_files := ["x"] }],
      tasks := [] }
    { payment_id := "p_1", user_id := 42, package := "both",
      method := "crypto", status := Status.review, created_at := 100,
      razorpay_qr_id := none, proof_files := ["x"] }
    DEFAULT_LINKS (by decide) (by decide) (by decide)

theorem message_handler_scan_last_match (uid : Nat) (f : String) :
    ∀ (db : List PaymentRecord) (j : Nat) (q : PaymentRecord),
      db[j]? = some q → isActivePendingManual uid q = true →
      (∀ (k : Nat) (r : PaymentRecord), j < k → db[k]? = some r →
        isActivePendingManual uid r = false) →
      message_handler_scan uid f db =
        (db.take j ++
          ({ q with status := Status.review, proof_files := q.proof_files ++ [f] }
            :: db.drop (j+1)),
         some q.payment_id) := by
  intro db
  induction db with
  | nil => intro j q hq; simp at hq
  | cons p rest ih =>
    intro j q hq hact hlast
    cases j with
    | zero =>
      obtain rfl : p = q := by simpa using hq
      have hrest : ∀ x ∈ rest, isActivePendingManual uid x = false := by
        intro x hx
        obtain ⟨k, hk⟩ := List.mem_iff_getElem?.mp hx
        exact hlast (k + 1) x (by omega) (by simpa using hk)
      have hscanrest := message_handler_scan_nomatch uid f rest hrest
      simp [message_handler_scan, hscanrest, hact]
    | succ j2 =>
      have hq2 : rest[j2]? = some q := by simpa using hq
      have hlast2 : ∀ (k : Nat) (r : PaymentRecord), j2 < k → rest[k]? = some r →
          isActivePendingManual uid r = false := by
        intro k r hk hkr
        exact hlast (k + 1) r (by omega) (by simpa using hkr)
      have hscanrest := ih j2 q hq2 hact hlast2
      simp [message_handler_scan, hscanrest]

/-- Claim C8 — a proof upload with no matching pending manual record
changes nothing, and with matches changes exactly the most recent one
(the record at the greatest matching index): that record moves to
review with the proof attached, every other record is untouched. -/
theorem proof_attaches_to_most_recent_pending (uid : Nat) (f : String) (s : State) :
    ((∀ p ∈ s.payments, isActivePendingManual uid p = false) →
      message_handler uid f s = s) ∧
    (∀ (j : Nat) (q : PaymentRecord),
      s.payments[j]? = some q → isActivePendingManual uid q = true →
      (∀ (k : Nat) (r : PaymentRecord), j < k → s.payments[k]? = some r →
        isActivePendingManual uid r = false) →
      (message_handler uid f s).payments =
        s.payments.take j ++
          ({ q with status := Status.review, proof_files := q.proof_files ++ [f] }
            :: s.payments.drop (j+1))) := by
  constructor
  · intro hall
    have hscan := message_handler_scan_nomatch uid f s.payments hall
    simp [message_handler, hscan]
  · intro j q hq hact hlast
    have hscan := message_handler_scan_last_match uid f s.payments j q hq hact hlast
    simp [message_handler, hscan]

/-- Witness for the C8 theorem: two pending crypto records of the same
buyer; the upload attaches to the later one and leaves the earlier one
pending. -/
theorem proof_attaches_to_most_recent_pending_witness :
    (message_handler 42 "proof.jpg"
        { payments := [
            { payment_id := "p_1", user_id := 42, package := "vip",
              method := "crypto", status := Status.pending, created_at := 10,
              razorpay_qr_id := none, proof_files := [] },
            { payment_id := "p_2", user_id := 42, package := "dark",
              method := "remitly", status := Status.pending, created_at := 20,
              razorpay_qr_id := none, proof_files := [] }],
          tasks := ["p_1", "p_2"] }).payments =
      ([{ payment_id := "p_1", user_id := 42, package := "vip",
          method := "crypto", status := Status.pending, created_at := 10,
          razorpay_qr_id := none, proof_files := [] },
        { payment_id := "p_2", user_id := 42, package := "dark",
          method := "remitly", status := Status.pending, created_at := 20,
          razorpay_qr_id := none, proof_files := [] }].take 1 ++
        ({ payment_id := "p_2", user_id := 42, package := "dark",
           method := "remitly", status := Status.review, created_at := 20,
           razorpay_qr_id := none, proof_files := ["proof.jpg"] } ::
          [{ payment_id := "p_1", user_id := 42, package := "vip",
             method := "crypto", status := Status.pending, created_at := 10,
             razorpay_qr_id := none, proof_files := [] },
           { payment_id := "p_2", user_id := 42, package := "dark",
             method := "remitly", status := Status.pending, created_at := 20,
             razorpay_qr_id := none, proof_files := [] }].drop 2)) :=
  (proof_attaches_to_most_recent_pending 42 "proof.jpg"
      { payments := [
          { payment_id := "p_1", user_id := 42, package := "vip",
            method := "crypto", status := Status.pending, created_at := 10,
            razorpay_qr_id := none, proof_files := [] },
          { payment_id := "p_2", user_id := 42, package := "dark",
            method := "remitly", status := Status.pending, created_at := 20,
            razorpay_qr_id := none, proof_files := [] }],
        tasks := ["p_1", "p_2"] }).2 1
    { payment_id := "p_2", user_id := 42, package := "dark",
      method := "remitly", status := Status.pending, created_at := 20,
      razorpay_qr_id := none, proof_files := [] }
    (by decide) (by decide)
    (by
      intro k r hk hkr
      rw [List.getElem?_eq_none (by simp; omega)] at hkr
      cases hkr)

/-! ### Decimal representation facts for the payment-id generator -/

theorem toDigitsCore_append (b : Nat) :
    ∀ (fuel n : Nat) (ds : List Char),
      Nat.toDigitsCore b fuel n ds = Nat.toDigitsCore b fuel n [] ++ ds := by
  intro fuel
  induction fuel with
  | zero => intro n ds; rfl
  | succ f ih =>
    intro n ds
    simp only [Nat.toDigitsCore]
    by_cases h : n / b = 0
    · simp [h]
    · simp only [h, if_false]
      rw [ih (n / b) (Nat.digitChar (n % b) :: ds), ih (n / b) [Nat.digitChar (n % b)]]
      simp

theorem toDigitsCore_eq_digits :
    ∀ (n : Nat), 0 < n → ∀ (fuel : Nat), n < fuel →
      Nat.toDigitsCore 10 fuel n [] = ((Nat.digits 10 n).map Nat.digitChar).reverse := by
  intro n
  induction n using Nat.strong_induction_on with
  | _ n ih =>
    intro hn fuel hfuel
    cases fuel with
    | zero => omega
    | succ f =>
      have hdig : Nat.digits 10 n = n % 10 :: Nat.digits 10 (n / 10) :=
        Nat.digits_def' (by norm_num) hn
      by_cases h : n / 10 = 0
      · simp only [Nat.toDigitsCore, h, if_pos rfl]
        rw [hdig, h]
        simp
      · have hlt : n / 10 < n := Nat.div_lt_self hn (by norm_num)
        have hpos : 0 < n / 10 := Nat.pos_of_ne_zero h
        have hflt : n / 10 < f := by omega
        simp only [Nat.toDigitsCore, h, if_false]
        rw [toDigitsCore_append 10 f (n / 10)]
        rw [ih (n / 10) hlt hpos f hflt]
        rw [hdig]
        simp

theorem digitChar_inj_lt :
    ∀ a : Nat, a < 10 → ∀ c : Nat, c < 10 → Nat.digitChar a = Nat.digitChar c → a = c := by
  decide

theorem map_digitChar_inj :
    ∀ (l1 l2 : List Nat), (∀ d ∈ l1, d < 10) → (∀ d ∈ l2, d < 10) →
      l1.map Nat.digitChar = l2.map Nat.digitChar → l1 = l2 := by
  intro l1
  induction l1 with
  | nil =>
    intro l2 _ _ h
    cases l2 with
    | nil => rfl
    | cons b t => simp at h
  | cons a t ih =>
    intro l2 h1 h2 h
    cases l2 with
    | nil => simp at h
    | cons b t2 =>
      simp only [List.map_cons, List.cons.injEq] at h
      have ha := h1 a (List.mem_cons_self _ _)
      have hb := h2 b (List.mem_cons_self _ _)
      obtain rfl : a = b := digitChar_inj_lt a ha b hb h.1
      rw [ih t2 (fun d hd => h1 d (List.mem_cons_of_mem _ hd))
        (fun d hd => h2 d (List.mem_cons_of_mem _ hd)) h.2]

theorem toDigits_eq_zero_char : ∀ k : Nat, Nat.toDigits 10 k = ['0'] → k = 0 := by
  intro k h
  rcases Nat.eq_zero_or_pos k with h0 | hpos
  · exact h0
  · rw [Nat.toDigits, toDigitsCore_eq_digits k hpos (k + 1) (by omega)] at h
    have hmap : (Nat.digits 10 k).map Nat.digitChar = ['0'] := by
      have := congrArg List.reverse h
      simpa using this
    have hd : Nat.digits 10 k = [0] :=
      map_digitChar_inj _ _ (fun d hd => Nat.digits_lt_base (by norm_num) hd)
        (by intro d hd; simp at hd; omega) (by rw [hmap]; rfl)
    have hk := Nat.ofDigits_digits 10 k
    rw [hd] at hk
    simp [Nat.ofDigits] at hk
    omega

theorem natRepr_inj (m n : Nat) (h : (Nat.repr m).data = (Nat.repr n).data) : m = n := by
  have hdata : Nat.toDigits 10 m = Nat.toDigits 10 n := by
    simpa [Nat.repr, List.asString] using h
  rcases Nat.eq_zero_or_pos m with hm | hm
  · rcases Nat.eq_zero_or_pos n with hn | hn
    · omega
    · subst hm
      have := toDigits_eq_zero_char n hdata.symm
      omega
  · rcases Nat.eq_zero_or_pos n with hn | hn
    · subst hn
      have := toDigits_eq_zero_char m hdata
      omega
    · rw [Nat.toDigits, toDigitsCore_eq_digits m hm (m + 1) (by omega),
        Nat.toDigits, toDigitsCore_eq_digits n hn (n + 1) (by omega)] at hdata
      have hmap := List.reverse_injective hdata
      have hdig := map_digitChar_inj _ _
        (fun d hd => Nat.digits_lt_base (by norm_num) hd)
        (fun d hd => Nat.digits_lt_base (by norm_num) hd) hmap
      have h1 := Nat.ofDigits_digits 10 m
      have h2 := Nat.ofDigits_digits 10 n
      rw [hdig, h2] at h1
      omega

/-- Claim C9 — counterexample.  Two distinct creation events (different
buyers, bundles and methods) falling in the same millisecond build
records with the *same* generated payment id: uniqueness across
concurrent creations fails. -/
theorem payment_id_same_millisecond_collision :
    mkEntry 1700000000000 1 "vip" "upi" 1700000000 ≠
      mkEntry 1700000000000 2 "dark" "crypto" 1700000000 ∧
    (mkEntry 1700000000000 1 "vip" "upi" 1700000000).payment_id =
      (mkEntry 1700000000000 2 "dark" "crypto" 1700000000).payment_id := by
  constructor
  · intro h
    have := congrArg PaymentRecord.user_id h
    simp [mkEntry] at this
  · rfl

/-- Claim C9 — amended.  The generated id is injective in the creation
millisecond: two creations at *different* milliseconds always get
distinct payment ids (only same-millisecond creations collide). -/
theorem payment_id_injective_in_milliseconds (t1 t2 : Nat) (h : t1 ≠ t2) :
    payment_id_of t1 ≠ payment_id_of t2 := by
  intro he
  apply h
  have hdata := congrArg String.data he
  have hd : ∀ u : Nat, ("p_" ++ toString u).data = 'p' :: '_' :: (Nat.repr u).data := by
    intro u; rfl
  rw [payment_id_of, payment_id_of, hd, hd] at hdata
  simp only [List.cons.injEq, true_and] at hdata
  exact natRepr_inj t1 t2 hdata

/-- Witness for the amended C9 theorem at two concrete milliseconds. -/
theorem payment_id_injective_in_milliseconds_witness :
    (1700000000000 : Nat) ≠ 1700000000001 ∧
      payment_id_of 1700000000000 ≠ payment_id_of 1700000000001 :=
  ⟨by omega, payment_id_injective_in_milliseconds 1700000000000 1700000000001 (by omega)⟩

theorem admin_review_scan_not_review (act pid : String) :
    ∀ (db : List PaymentRecord) (p : PaymentRecord),
      findFirst pid db = some p → p.status ≠ Status.review →
      (act = "approve" ∨ act = "decline") →
      admin_review_scan act pid db = (db, []) := by
  intro db
  induction db with
  | nil => intro p h; simp [findFirst] at h
  | cons q rest ih =>
    intro p hf hst ha
    by_cases hid : (q.payment_id == pid) = true
    · obtain rfl : q = p := by simpa [findFirst, hid] using hf
      have hs : (q.status == Status.review) = false := by
        simpa using hst
      rcases ha with ha | ha <;> subst ha <;> simp [admin_review_scan, hid, hs]
    · have hf2 : findFirst pid rest = some p := by simpa [findFirst, hid] using hf
      simp [admin_review_scan, hid, ih p hf2 hst ha]

theorem step_tasks_subset (t : Trigger) (s : State) (x : String) :
    x ∈ (step t s).tasks → x ∈ s.tasks := by
  cases t with
  | credit qr uid pkg b =>
    intro hx
    rcases hscan : webhook_credit_scan qr s.payments with ⟨db2, opid⟩
    cases opid with
    | some pid =>
      have ht : (step (Trigger.credit qr uid pkg b) s).tasks =
          s.tasks.filter (fun t => t ≠ pid) := by
        simp [step, webhook_validated, hscan]
      rw [ht] at hx
      exact (List.mem_filter.mp hx).1
    | none =>
      have ht : (step (Trigger.credit qr uid pkg b) s).tasks = s.tasks := by
        simp [step, webhook_validated, hscan]
      rwa [ht] at hx
  | adminAct a act pid =>
    intro hx
    have hx2 : x ∈ s.tasks.filter (fun t => t ≠ pid) := hx
    exact (List.mem_filter.mp hx2).1
  | timeout pid =>
    intro hx
    by_cases ht : pid ∈ s.tasks
    · have h2 : (step (Trigger.timeout pid) s).tasks = s.tasks := by
        simp [step, start_countdown_timeout, ht]
      rwa [h2] at hx
    · have h2 : step (Trigger.timeout pid) s = s := by
        simp [step, start_countdown_timeout, ht]
      rwa [h2] at hx
  | proofUpload uid f =>
    intro hx
    rcases hscan : message_handler_scan uid f s.payments with ⟨db2, opid⟩
    cases opid with
    | some pid =>
      have ht : (step (Trigger.proofUpload uid f) s).tasks =
          s.tasks.filter (fun t => t ≠ pid) := by
        simp [step, message_handler, hscan]
      rw [ht] at hx
      exact (List.mem_filter.mp hx).1
    | none =>
      have ht : step (Trigger.proofUpload uid f) s = s := by
        simp [step, message_handler, hscan]
      rwa [ht] at hx

theorem step_preserves_live (t : Trigger) (pid : String) (i : Nat) (s : State)
    (h : ∃ r, s.payments[i]? = some r ∧ r.payment_id = pid ∧ r.status ≠ Status.expired)
    (htask : pid ∉ s.tasks) :
    (∃ r2, (step t s).payments[i]? = some r2 ∧ r2.payment_id = pid ∧
      r2.status ≠ Status.expired) ∧ pid ∉ (step t s).tasks := by
  obtain ⟨r, hr, hid, hst⟩ := h
  constructor
  · cases t with
    | credit qr uid pkg b =>
      rw [step_credit_payments]
      rcases webhook_credit_scan_get qr s.payments i with hc | ⟨q, hq, _, hres⟩
      · exact ⟨r, by rw [hc]; exact hr, hid, hst⟩
      · rw [hr] at hq; cases hq
        exact ⟨_, hres, hid, by simp⟩
    | adminAct a2 act2 pid2 =>
      rw [step_admin_payments]
      rcases admin_review_scan_get act2 pid2 s.payments i with hc | ⟨q, hq, _, _, hres | hres⟩
      · exact ⟨r, by rw [hc]; exact hr, hid, hst⟩
      · rw [hr] at hq; cases hq
        exact ⟨_, hres, hid, by simp⟩
      · rw [hr] at hq; cases hq
        exact ⟨_, hres, hid, by simp⟩
    | timeout pid2 =>
      by_cases ht : pid2 ∈ s.tasks
      · have hpay : (step (Trigger.timeout pid2) s).payments = expire_scan pid2 s.payments := by
          simp [step, start_countdown_timeout, ht]
        rw [hpay]
        rcases expire_scan_get pid2 s.payments i with hc | ⟨q, hq, hqid, _, _⟩
        · exact ⟨r, by rw [hc]; exact hr, hid, hst⟩
        · rw [hr] at hq; cases hq
          exfalso
          have hpp : r.payment_id = pid2 := by simpa using hqid
          rw [hid] at hpp
          exact htask (hpp ▸ ht)
      · have heq : step (Trigger.timeout pid2) s = s := by
          simp [step, start_countdown_timeout, ht]
        rw [heq]
        exact ⟨r, hr, hid, hst⟩
    | proofUpload uid f =>
      rw [step_proof_payments]
      rcases message_handler_scan_get uid f s.payments i with hc | ⟨q, hq, _, hres⟩
      · exact ⟨r, by rw [hc]; exact hr, hid, hst⟩
      · rw [hr] at hq; cases hq
        exact ⟨_, hres, hid, by simp⟩
  · intro hmem
    exact htask (step_tasks_subset t s pid hmem)

theorem runTriggers_preserves_live (ts : List Trigger) (pid : String) (i : Nat) :
    ∀ s : State,
      (∃ r, s.payments[i]? = some r ∧ r.payment_id = pid ∧ r.status ≠ Status.expired) →
      pid ∉ s.tasks →
      ∃ r2, (runTriggers ts s).payments[i]? = some r2 ∧ r2.payment_id = pid ∧
        r2.status ≠ Status.expired := by
  induction ts with
  | nil => intro s h _; simpa [runTriggers] using h
  | cons t ts2 ih =>
    intro s h htask
    have hstep := step_preserves_live t pid i s h htask
    have hrun : runTriggers (t :: ts2) s = runTriggers ts2 (step t s) := rfl
    rw [hrun]
    exact ih (step t s) hstep.1 hstep.2

/-- Claim C10 — the admin approve/decline handler cancels and removes the
countdown task *before* the status check: a callback whose payment id
resolves to a record still `pending` leaves every record untouched yet
removes that id's countdown task; afterwards no sequence of triggers
can ever move a record carrying that payment id to `expired` (the
expiry path requires a live task, no trigger re-creates one, and no
other trigger writes `expired`). -/
theorem admin_callback_on_pending_removes_timeout
    (a : Nat) (act pid : String) (s : State) (p : PaymentRecord) (i : Nat)
    (r : PaymentRecord) (ts : List Trigger)
    (hf : findFirst pid s.payments = some p) (hp : p.status = Status.pending)
    (ha : act = "approve" ∨ act = "decline")
    (hr : s.payments[i]? = some r) (hrid : r.payment_id = pid)
    (hrs : r.status ≠ Status.expired) :
    (admin_review_handler a act pid s).1.payments = s.payments ∧
    pid ∉ (admin_review_handler a act pid s).1.tasks ∧
    ∃ r2, (runTriggers ts (admin_review_handler a act pid s).1).payments[i]? = some r2 ∧
      r2.payment_id = pid ∧ r2.status ≠ Status.expired := by
  have hscan : admin_review_scan act pid s.payments = (s.payments, []) :=
    admin_review_scan_not_review act pid s.payments p hf (by rw [hp]; intro h2; cases h2) ha
  have h1 : (admin_review_handler a act pid s).1.payments = s.payments := by
    simp [admin_review_handler, hscan]
  have h2 : pid ∉ (admin_review_handler a act pid s).1.tasks := by
    have ht : (admin_review_handler a act pid s).1.tasks =
        s.tasks.filter (fun t => t ≠ pid) := rfl
    rw [ht]
    exact not_mem_filter_ne pid s.tasks
  refine ⟨h1, h2, ?_⟩
  exact runTriggers_preserves_live ts pid i _ ⟨r, by rw [h1]; exact hr, hrid, hrs⟩ h2

/-- Witness for the C10 theorem: an approve callback on a still-pending
crypto record removes its countdown; the subsequent deadline trigger no
longer expires it. -/
theorem admin_callback_on_pending_removes_timeout_witness :
    (admin_review_handler 7202040199 "approve" "p_1"
        { payments := [{ payment_id := "p_1", user_id := 42, package := "vip",
                         method := "crypto", status := Status.pending, created_at := 100,
                         razorpay_qr_id := none, proof_files := [] }],
          tasks := ["p_1"] }).1.payments =
      ({ payments := [{ payment_id := "p_1", user_id := 42, package := "vip",
                        method := "crypto", status := Status.pending, created_at := 100,
                        razorpay_qr_id := none, proof_files := [] }],
         tasks := ["p_1"] } : State).payments ∧
    "p_1" ∉ (admin_review_handler 7202040199 "approve" "p_1"
        { payments := [{ payment_id := "p_1", user_id := 42, package := "vip",
                         method := "crypto", status := Status.pending, created_at := 100,
                         razorpay_qr_id := none, proof_files := [] }],
          tasks := ["p_1"] }).1.tasks ∧
    ∃ r2, (runTriggers [Trigger.timeout "p_1"]
        (admin_review_handler 7202040199 "approve" "p_1"
          { payments := [{ payment_id := "p_1", user_id := 42, package := "vip",
                           method := "crypto", status := Status.pending, created_at := 100,
                           razorpay_qr_id := none, proof_files := [] }],
            tasks := ["p_1"] }).1).payments[0]? = some r2 ∧
      r2.payment_id = "p_1" ∧ r2.status ≠ Status.expired :=
  admin_callback_on_pending_removes_timeout 7202040199 "approve" "p_1"
    { payments := [{ payment_id := "p_1", user_id := 42, package := "vip",
                     method := "crypto", status := Status.pending, created_at := 100,
                     razorpay_qr_id := none, proof_files := [] }],
      tasks := ["p_1"] }
    { payment_id := "p_1", user_id := 42, package := "vip",
      method := "crypto", status := Status.pending, created_at := 100,
      razorpay_qr_id := none, proof_files := [] } 0
    { payment_id := "p_1", user_id := 42, package := "vip",
      method := "crypto", status := Status.pending, created_at := 100,
      razorpay_qr_id := none, proof_files := [] } [Trigger.timeout "p_1"]
    (by decide) (by decide) (Or.inl rfl) (by decide) (by decide) (by decide)

end PaymentBot
